import Mathlib

/-!
# TodoistCLI: the interaction state machine of `main.go`

A shallow embedding of `src/main.go` (types `Task`, `model`; functions
`LoadTasks`, `SaveTask`, `initialModel`, `model.Update`) followed by theorems
about it.

Conventions of the embedding:

* Go `int` values (`currentMode`, `cursor`, the result of `strconv.Atoi`) are
  `Int`; no arithmetic of the program can leave the 64-bit range, because the
  cursor changes by one per step, decreases only while positive and increases
  only while below `len(tasks)-1`.
* A slice of tasks is a `List Task`.  Indexing and slicing are checked and
  return `Except Panic`, as the Go runtime panics on a bad index.
* The file system and the error stream are an explicit `World` that is passed
  through; `World.saveLog` records every call of `SaveTask` with its arguments.
* How the file system behaves during the `SaveTask` call of a step is an input
  of the step (`fs : FsOutcome`): success, or a failure of `os.Create`, of a
  `writer.Write`, or of the deferred `writer.Flush()`.
* A persisted file is the list of its records; the quoting of the CSV format
  is below the embedding.  The reader's check of the number of fields per
  record is part of `LoadTasks`.
* The line-input widget (`bubbles/textinput`) is an external library.  Its
  setters are embedded as record updates; its key handler is an input of the
  step (`tiUpdate`), so that every theorem holds for every behaviour of the
  widget.
-/

namespace TodoistCLI

/-! ## Data model -/

/-- Mode constant `modeIdle` (main.go line 16). -/
def modeIdle : Int := 0
/-- Mode constant `modeList` (main.go line 17). -/
def modeList : Int := 1
/-- Mode constant `modeAdd` (main.go line 18). -/
def modeAdd : Int := 2
/-- Mode constant `modeDelete` (main.go line 19). -/
def modeDelete : Int := 3

/-- Type `Task` (main.go lines 25-28). -/
structure Task where
  description : String
  completed : Bool
  deriving DecidableEq, Repr

/-- A command handed back to the driver: `nil`, `tea.Quit`, or whatever the
input widget returned (kept abstract as a number). -/
inductive Cmd where
  | nil
  | Quit
  | widget (c : Nat)
  deriving DecidableEq, Repr

/-- The part of `textinput.Model` that `main.go` reads or writes: the text
(`Value()`), the public field `Placeholder`, and the focus flag. -/
structure TextInput where
  value : String
  Placeholder : String
  focus : Bool
  deriving DecidableEq, Repr

/-- Method `textinput.Model.SetValue`, used by main.go only with `""`. -/
def TextInput.SetValue (t : TextInput) (s : String) : TextInput :=
  { t with value := s }

/-- Method `textinput.Model.Reset`: the text becomes empty. -/
def TextInput.Reset (t : TextInput) : TextInput :=
  t.SetValue ""

/-- Method `textinput.Model.Focus`; the command it returns is dropped by main.go. -/
def TextInput.Focus (t : TextInput) : TextInput :=
  { t with focus := true }

/-- Type `model` (main.go lines 30-36). -/
structure model where
  tasks : List Task
  textinput : TextInput
  currentMode : Int
  cursor : Int
  fileName : String
  deriving DecidableEq, Repr

/-- A message of the driver.  A `tea.KeyMsg` is represented by the text that
`msg.String()` returns for it, which is all that `Update` inspects; every
other message type is `other`. -/
inductive Msg where
  | KeyMsg (s : String)
  | other
  deriving DecidableEq, Repr

/-- Run-time panics of the Go code that the embedding tracks. -/
inductive Panic where
  | indexOutOfRange
  | sliceBoundsOutOfRange
  deriving DecidableEq, Repr

/-- The outside world: the records of each persisted file, the lines written
to the error stream, and the log of the calls of `SaveTask`. -/
structure World where
  disk : String → Option (List (List String))
  stderr : List String
  saveLog : List (String × List Task)

/-! ## Library functions used by the code -/

/-- Function `strconv.FormatBool`. -/
def FormatBool (b : Bool) : String :=
  if b then "true" else "false"

/-- Function `strconv.Atoi` for a 64-bit `int`: an optional sign followed by at
least one decimal digit, and a value in `[-2^63, 2^63-1]`; anything else is an
error (`none`). -/
def Atoi (s : String) : Option Int :=
  let cs := s.toList
  let neg := cs.head? = some '-'
  let ds := if cs.head? = some '+' ∨ cs.head? = some '-' then cs.tail else cs
  if ds = [] then none
  else if ds.all Char.isDigit then
    let un : Nat := ds.foldl (fun a c => a * 10 + (c.toNat - 48)) 0
    let v : Int := if neg then -(un : Int) else (un : Int)
    if -(2 ^ 63 : Int) ≤ v ∧ v < (2 ^ 63 : Int) then some v else none
  else none

/-! ## Checked slice operations -/

/-- Index expression `ts[i]`. -/
def index (ts : List Task) (i : Int) : Except Panic Task :=
  if i < 0 then .error .indexOutOfRange
  else
    match ts[i.toNat]? with
    | some t => .ok t
    | none => .error .indexOutOfRange

/-- Assignment `ts[i] = t`. -/
def setIndex (ts : List Task) (i : Int) (t : Task) : Except Panic (List Task) :=
  if i < 0 ∨ (ts.length : Int) ≤ i then .error .indexOutOfRange
  else .ok (ts.set i.toNat t)

/-- Slice expression `ts[:j]`.  The bound checked is the length; Go checks the
capacity, which is at least the length, so the embedding panics whenever Go
does. -/
def sliceTo (ts : List Task) (j : Int) : Except Panic (List Task) :=
  if j < 0 ∨ (ts.length : Int) < j then .error .sliceBoundsOutOfRange
  else .ok (ts.take j.toNat)

/-- Slice expression `ts[j:]`. -/
def sliceFrom (ts : List Task) (j : Int) : Except Panic (List Task) :=
  if j < 0 ∨ (ts.length : Int) < j then .error .sliceBoundsOutOfRange
  else .ok (ts.drop j.toNat)

/-! ## Task store -/

/-- The record that `SaveTask` writes for a task (main.go line 76). -/
def taskRecord (task : Task) : List String :=
  [task.description, FormatBool task.completed]

/-- How the file system behaves during one call of `SaveTask`.  Once
`os.Create` has succeeded the file is empty, and what has reached it when a
later operation fails is a part of the output, kept here as the number of
leading records that were written. -/
inductive FsOutcome where
  /-- Every operation succeeds. -/
  | ok
  /-- Function `os.Create` returns an error (main.go lines 67-70). -/
  | createFails (err : String)
  /-- A call of `writer.Write` returns an error (main.go lines 77-79). -/
  | writeFails (err : String) (written : Nat)
  /-- The deferred `writer.Flush()` of line 73 fails; its error is never read. -/
  | flushFails (written : Nat)
  deriving DecidableEq, Repr

/-- Function `SaveTask` (main.go lines 66-82), on records; `fs` is the
behaviour of the file system.  When `os.Create` fails the error is returned
and the file stays as it was.  Otherwise the file is truncated and the loop
writes one record per task, in list order: a failing `writer.Write` (only
called when there is a task) returns its error with a part of the records in
the file; a failing deferred `writer.Flush()` leaves a part of the records in
the file and `SaveTask` still returns nil; with no failure the file holds
every record and nil is returned. -/
def SaveTask (fs : FsOutcome) (fileName : String) (tasks : List Task)
    (w : World) : Option String × World :=
  let w1 : World := { w with saveLog := w.saveLog ++ [(fileName, tasks)] }
  let holding (records : List (List String)) : World :=
    { w1 with disk := fun f => if f = fileName then some records else w1.disk f }
  match fs with
  | .createFails err => (some err, w1)
  | .writeFails err written =>
    if tasks = [] then (none, holding [])
    else (some err, holding ((tasks.map taskRecord).take written))
  | .flushFails written => (none, holding ((tasks.map taskRecord).take written))
  | .ok => (none, holding (tasks.map taskRecord))

/-- A call `fmt.Fprintf(os.Stderr, "Error saving tasks: %v\n", err)`. -/
def reportSaveError (err : String) (w : World) : World :=
  { w with stderr := w.stderr ++ ["Error saving tasks: " ++ err ++ "\n"] }

/-- The statement `if err := SaveTask(...); err != nil { fmt.Fprintf(...) }`
of main.go lines 145-147, 176-178 and 188-190. -/
def saveAndReport (fs : FsOutcome) (fileName : String) (tasks : List Task)
    (w : World) : World :=
  match SaveTask fs fileName tasks w with
  | (some err, w1) => reportSaveError err w1
  | (none, w1) => w1

/-- How `LoadTasks` can fail: with an error value that it returns to its
caller, or with a run-time panic. -/
inductive LoadFailure where
  | error (err : String)
  | panic (p : Panic)
  deriving DecidableEq, Repr

/-- The body of the loop of `LoadTasks` after a successful `reader.Read()`
(main.go lines 54-61): the task built from one record.  `record[0]` panics on
a record without fields. -/
def decodeRecord (record : List String) : Except LoadFailure Task :=
  let completed : Bool :=
    if record.length > 1 ∧ record[1]? = some "true" then true else false
  match record[0]? with
  | some d => .ok { description := d, completed := completed }
  | none => .error (.panic .indexOutOfRange)

/-- The loop of `LoadTasks` (main.go lines 46-62) over the records that the
CSV reader yields, with the tasks appended so far.  The first argument is the
reader field `FieldsPerRecord`: it starts at 0, is set to the number of fields
of the first record, and every later record with another number of fields
makes `reader.Read()` return an error, which `LoadTasks` returns. -/
def readLoop : Nat → List (List String) → List Task → Except LoadFailure (List Task)
  | _, [], tasks => .ok tasks
  | fieldsPerRecord, record :: rest, tasks =>
    if fieldsPerRecord > 0 ∧ record.length ≠ fieldsPerRecord then
      .error (.error "wrong number of fields")
    else do
      let t ← decodeRecord record
      readLoop (if fieldsPerRecord > 0 then fieldsPerRecord else record.length) rest
        (tasks ++ [t])

/-- Function `LoadTasks` (main.go lines 38-64), on records: a missing file is
the error of `os.Open`; otherwise the records are read in order. -/
def LoadTasks (w : World) (fileName : String) : Except LoadFailure (List Task) :=
  match w.disk fileName with
  | none => .error (.error "open: no such file or directory")
  | some records => readLoop 0 records []

/-! ## Interaction state machine -/

/-- The loop of main.go lines 183-187.  The first argument is `i + 1` for the
loop variable `i`, which runs from `len(tasks) - 1` down to `0`. -/
def deleteCompletedLoop : Nat → List Task → Except Panic (List Task)
  | 0, ts => .ok ts
  | i + 1, ts => do
    let t ← index ts (i : Int)
    if t.completed then
      let a ← sliceTo ts (i : Int)
      let b ← sliceFrom ts ((i : Int) + 1)
      deleteCompletedLoop i (a ++ b)
    else
      deleteCompletedLoop i ts

/-- The `case modeIdle:` block of `Update` (main.go lines 112-134); a key that
matches no case leaves the switch and reaches `return m, cmd` with `cmd` nil. -/
def UpdateIdle (m : model) (k : String) (w : World) : Except Panic (model × Cmd × World) :=
  if k = "ctrl+c" ∨ k = "q" then
    .ok (m, Cmd.Quit, w)
  else if k = "+" then
    let ti := { m.textinput.Reset with Placeholder := "Enter a new task" }
    .ok ({ m with currentMode := modeAdd, textinput := ti.Focus }, Cmd.nil, w)
  else if k = "l" then
    .ok ({ m with currentMode := modeList }, Cmd.nil, w)
  else if k = "d" then
    let ti := { m.textinput.Reset with Placeholder := "Enter the task number" }
    .ok ({ m with currentMode := modeDelete, textinput := ti.Focus }, Cmd.nil, w)
  else
    .ok (m, Cmd.nil, w)

/-- The `case modeAdd:` block of `Update` (main.go lines 136-157): the widget
handles the key first, then "enter" and "esc" are acted upon. -/
def UpdateAdd (tiUpdate : TextInput → String → TextInput × Cmd) (fs : FsOutcome)
    (m : model) (k : String) (w : World) : Except Panic (model × Cmd × World) :=
  let ti := (tiUpdate m.textinput k).1
  let cmd := (tiUpdate m.textinput k).2
  let m1 : model := { m with textinput := ti }
  if k = "enter" then
    if m1.textinput.value ≠ "" then
      let tasks := m1.tasks ++ [{ description := m1.textinput.value, completed := false }]
      let w1 := saveAndReport fs m1.fileName tasks w
      .ok ({ m1 with tasks := tasks, textinput := m1.textinput.Reset, currentMode := modeIdle },
        cmd, w1)
    else
      .ok ({ m1 with textinput := m1.textinput.Reset, currentMode := modeIdle }, cmd, w)
  else if k = "esc" then
    .ok ({ m1 with textinput := m1.textinput.Reset, currentMode := modeIdle }, cmd, w)
  else
    .ok (m1, cmd, w)

/-- The `case modeList:` block of `Update` (main.go lines 159-196). -/
def UpdateList (fs : FsOutcome) (m : model) (k : String) (w : World) :
    Except Panic (model × Cmd × World) :=
  if k = "up" then
    if m.cursor > 0 then .ok ({ m with cursor := m.cursor - 1 }, Cmd.nil, w)
    else .ok (m, Cmd.nil, w)
  else if k = "down" then
    if m.cursor < (m.tasks.length : Int) - 1 then
      .ok ({ m with cursor := m.cursor + 1 }, Cmd.nil, w)
    else .ok (m, Cmd.nil, w)
  else if k = "enter" then
    if m.cursor < (m.tasks.length : Int) then do
      let t ← index m.tasks m.cursor
      let tasks ← setIndex m.tasks m.cursor { t with completed := !t.completed }
      let w1 := saveAndReport fs m.fileName tasks w
      .ok ({ m with tasks := tasks }, Cmd.nil, w1)
    else
      .ok (m, Cmd.nil, w)
  else if k = "d" then do
    let tasks ← deleteCompletedLoop m.tasks.length m.tasks
    let w1 := saveAndReport fs m.fileName tasks w
    .ok ({ m with tasks := tasks }, Cmd.nil, w1)
  else if k = "esc" then
    .ok ({ m with currentMode := modeIdle }, Cmd.nil, w)
  else
    .ok (m, Cmd.nil, w)

/-- The `case modeDelete:` block of `Update` (main.go lines 198-218).  The
error of the `SaveTask` call on line 205 is dropped by the code. -/
def UpdateDelete (tiUpdate : TextInput → String → TextInput × Cmd) (fs : FsOutcome)
    (m : model) (k : String) (w : World) : Except Panic (model × Cmd × World) :=
  let ti := (tiUpdate m.textinput k).1
  let cmd := (tiUpdate m.textinput k).2
  let m1 : model := { m with textinput := ti }
  if k = "enter" then
    match Atoi m1.textinput.value with
    | some n =>
      if n > 0 ∧ n ≤ (m1.tasks.length : Int) then do
        let a ← sliceTo m1.tasks (n - 1)
        let b ← sliceFrom m1.tasks n
        let tasks := a ++ b
        let w1 := (SaveTask fs m1.fileName tasks w).2
        .ok ({ m1 with tasks := tasks, textinput := m1.textinput.Reset,
                       currentMode := modeIdle }, cmd, w1)
      else
        let ti2 := { m1.textinput.SetValue "" with
                       Placeholder := "Invalid task number! Try again." }
        .ok ({ m1 with textinput := ti2 }, cmd, w)
    | none =>
      let ti2 := { m1.textinput.SetValue "" with
                     Placeholder := "Invalid task number! Try again." }
      .ok ({ m1 with textinput := ti2 }, cmd, w)
  else if k = "esc" then
    .ok ({ m1 with textinput := m1.textinput.Reset, currentMode := modeIdle }, cmd, w)
  else
    .ok (m1, cmd, w)

/-- Method `model.Update` (main.go lines 107-222).  `tiUpdate` is the key
handler of the input widget and `fs` the behaviour of the file system during
the `SaveTask` call of this step.  A message that is not a key, and a mode outside the four
constants, reach the final `return m, cmd` with `cmd` nil. -/
def Update (tiUpdate : TextInput → String → TextInput × Cmd) (fs : FsOutcome)
    (m : model) (msg : Msg) (w : World) : Except Panic (model × Cmd × World) :=
  match msg with
  | Msg.other => .ok (m, Cmd.nil, w)
  | Msg.KeyMsg k =>
    if m.currentMode = modeIdle then UpdateIdle m k w
    else if m.currentMode = modeAdd then UpdateAdd tiUpdate fs m k w
    else if m.currentMode = modeList then UpdateList fs m k w
    else if m.currentMode = modeDelete then UpdateDelete tiUpdate fs m k w
    else .ok (m, Cmd.nil, w)

/-- The session that `initialModel` builds (main.go lines 84-101) from the
loaded tasks: mode Idle, cursor 0, file `tasks.csv`, a focused empty input. -/
def initialModel (tasks : List Task) : model :=
  { tasks := tasks
    textinput := ({ value := "", Placeholder := "Enter the task", focus := false } : TextInput).Focus
    currentMode := modeIdle
    cursor := 0
    fileName := "tasks.csv" }

/-- One delivery of the driver: the message, together with the behaviour of
the input widget and the outcome of the file system during that step. -/
structure Event where
  tiUpdate : TextInput → String → TextInput × Cmd
  fs : FsOutcome
  msg : Msg

/-- The event loop: `Update` applied to each event in turn.  The loop does not
stop at `tea.Quit`, because the driver may deliver further events before the
quit takes effect; a sequence that ends at the quit is a shorter list. -/
def run : List Event → model → World → Except Panic (model × World)
  | [], m, w => .ok (m, w)
  | e :: es, m, w =>
    match Update e.tiUpdate e.fs m e.msg w with
    | .ok (m1, _, w1) => run es m1 w1
    | .error p => .error p

/-- A line-input widget for concrete scenarios: a key of one character is
typed at the end of the text, every other key leaves the widget as it is. -/
def typing (t : TextInput) (k : String) : TextInput × Cmd :=
  if k.length = 1 then ({ t with value := t.value ++ k }, Cmd.nil) else (t, Cmd.nil)

/-- A key event handled with the `typing` widget and a working file system. -/
def key (k : String) : Event :=
  { tiUpdate := typing, fs := FsOutcome.ok, msg := Msg.KeyMsg k }

/-- An empty world: no file, nothing written, nothing logged. -/
def World.empty : World :=
  { disk := fun _ => none, stderr := [], saveLog := [] }

/-! ## Concrete sessions and step predicates used by the theorems -/

/-- Scenario 3 of the specification, in List mode. -/
def scenario3 : model :=
  { initialModel [⟨"a", true⟩, ⟨"b", false⟩, ⟨"c", true⟩] with currentMode := modeList }

/-- Scenario 5 of the specification: Delete mode, two tasks, "2" typed. -/
def scenario5 : model :=
  { initialModel [⟨"a", true⟩, ⟨"b", false⟩] with
      currentMode := modeDelete
      textinput := { value := "2", Placeholder := "Enter the task number", focus := true } }

/-- Scenario 4 of the specification: Delete mode, two tasks, "5" typed. -/
def scenario4 : model :=
  { initialModel [⟨"a", true⟩, ⟨"b", false⟩] with
      currentMode := modeDelete
      textinput := { value := "5", Placeholder := "Enter the task number", focus := true } }

/-- Scenario 1 of the specification: Add mode, no task, "buy milk" typed. -/
def scenario1 : model :=
  { initialModel [] with
      currentMode := modeAdd
      textinput := { value := "buy milk", Placeholder := "Enter a new task", focus := true } }

/-- Scenario 2 of the specification: List mode, three open tasks, cursor 1. -/
def scenario2 : model :=
  { initialModel [⟨"a", false⟩, ⟨"b", false⟩, ⟨"c", false⟩] with
      currentMode := modeList
      cursor := 1 }

/-- What one successful step guarantees: the file name stays, a cursor that
was not negative stays so, either the task list and the world are untouched or
the world is the one after a `SaveTask` call with the resulting task list, and
every resulting task has a description that is not empty or is the
description of an earlier task. -/
def StepOK (fs : FsOutcome) (m : model) (w : World) (r : model × Cmd × World) : Prop :=
  r.1.fileName = m.fileName
    ∧ (0 ≤ m.cursor → 0 ≤ r.1.cursor)
    ∧ ((r.1.tasks = m.tasks ∧ r.2.2 = w)
        ∨ r.2.2 = saveAndReport fs m.fileName r.1.tasks w
        ∨ r.2.2 = (SaveTask fs m.fileName r.1.tasks w).2)
    ∧ ∀ t ∈ r.1.tasks, t.description ≠ "" ∨ ∃ t0 ∈ m.tasks, t0.description = t.description

/-- A world whose file `tasks.csv` holds the records of the given tasks. -/
def World.holding (tasks : List Task) : World :=
  { disk := fun f => if f = "tasks.csv" then some (tasks.map taskRecord) else none
    stderr := []
    saveLog := [] }

/-- The session and the command that a step returns, without the world. -/
def session (r : Except Panic (model × Cmd × World)) : Except Panic (model × Cmd) :=
  r.map (fun x => (x.1, x.2.1))

/-- A world whose file `tasks.csv` holds two records of one field each. -/
def World.oneField : World :=
  { disk := fun f => if f = "tasks.csv" then some [["a"], ["b"]] else none
    stderr := []
    saveLog := [] }

/-- The List-mode session reached from the initial session with the tasks a
(completed) and b by the keys "l", "down", "d": one task left, cursor 1. -/
def staleCursor : model :=
  { initialModel [⟨"b", false⟩] with currentMode := modeList, cursor := 1 }

/-- Two tasks, the first completed, List mode, cursor on the last task. -/
def cursorAtEnd : model :=
  { initialModel [⟨"a", true⟩, ⟨"b", false⟩] with currentMode := modeList, cursor := 1 }

/-- Two completed tasks, List mode, cursor on the last task. -/
def allCompleted : model :=
  { initialModel [⟨"a", true⟩, ⟨"b", true⟩] with currentMode := modeList, cursor := 1 }

/-- A List-mode session without tasks whose cursor is -1. -/
def negativeCursor : model :=
  { initialModel [] with currentMode := modeList, cursor := -1 }

/-- A List-mode session without tasks, cursor 0. -/
def emptyList : model :=
  { initialModel [] with currentMode := modeList }

/-- The four actions that can change the task list: "enter" in Add mode with
a non-empty pending input, "enter" in List mode, "d" in List mode, and "enter"
in Delete mode with a pending input that parses to a task number between 1
and `len(tasks)`.  The pending input is the text the widget holds after it
handled the key. -/
def mutatingAction (tiUpdate : TextInput → String → TextInput × Cmd) (m : model)
    (k : String) : Prop :=
  (m.currentMode = modeAdd ∧ k = "enter" ∧ (tiUpdate m.textinput k).1.value ≠ "")
    ∨ (m.currentMode = modeList ∧ k = "enter")
    ∨ (m.currentMode = modeList ∧ k = "d")
    ∨ (m.currentMode = modeDelete ∧ k = "enter"
        ∧ ∃ n, Atoi (tiUpdate m.textinput k).1.value = some n
            ∧ 1 ≤ n ∧ n ≤ (m.tasks.length : Int))

/-! ## Lemmas on the checked slice operations and the removal loop -/

theorem index_ok (ts : List Task) (i : Nat) (h : i < ts.length) :
    index ts (i : Int) = .ok ts[i] := by
  unfold index
  have h0 : ¬ ((i : Int) < 0) := by omega
  simp [h0, List.getElem?_eq_getElem h]

theorem sliceTo_ok (ts : List Task) (j : Nat) (h : j ≤ ts.length) :
    sliceTo ts (j : Int) = .ok (ts.take j) := by
  unfold sliceTo
  have h0 : ¬ ((j : Int) < 0 ∨ (ts.length : Int) < (j : Int)) := by omega
  rw [if_neg h0, Int.toNat_ofNat]

theorem sliceFrom_ok (ts : List Task) (j : Nat) (h : j ≤ ts.length) :
    sliceFrom ts (j : Int) = .ok (ts.drop j) := by
  unfold sliceFrom
  have h0 : ¬ ((j : Int) < 0 ∨ (ts.length : Int) < (j : Int)) := by omega
  rw [if_neg h0, Int.toNat_ofNat]

theorem deleteCompletedLoop_eq (k : Nat) : ∀ ts : List Task, k ≤ ts.length →
    deleteCompletedLoop k ts
      = .ok ((ts.take k).filter (fun t => !t.completed) ++ ts.drop k) := by
  induction k with
  | zero => intro ts _; simp [deleteCompletedLoop]
  | succ i ih =>
    intro ts h
    have hi : i < ts.length := by omega
    have hsl : sliceFrom ts ((i : Int) + 1) = .ok (ts.drop (i + 1)) := by
      have := sliceFrom_ok ts (i + 1) h
      simpa using this
    have htake : ts.take (i + 1) = ts.take i ++ [ts[i]] := by
      rw [List.take_succ, List.getElem?_eq_getElem hi]; rfl
    have hdrop : ts.drop i = ts[i] :: ts.drop (i + 1) := by
      exact List.drop_eq_getElem_cons hi
    unfold deleteCompletedLoop
    simp only [index_ok ts i hi, sliceTo_ok ts i (le_of_lt hi), hsl, bind, Except.bind]
    by_cases hc : ts[i].completed = true
    · have hlen : i ≤ (ts.take i ++ ts.drop (i + 1)).length := by
        simp [List.length_append, List.length_take]; omega
      have ht : (ts.take i ++ ts.drop (i + 1)).take i = ts.take i := by
        rw [List.take_append_of_le_length (by simp [List.length_take]; omega)]
        simp [List.take_take]
      have hd : (ts.take i ++ ts.drop (i + 1)).drop i = ts.drop (i + 1) := by
        have hl : (ts.take i).length = i := by simp [List.length_take]; omega
        exact List.drop_left' hl
      simp only [hc, if_true]
      rw [ih _ hlen, ht, hd, htake, List.filter_append]
      simp [hc]
    · simp only [hc]
      rw [ih ts (le_of_lt hi), htake, List.filter_append, hdrop]
      simp [hc]

theorem index_ok_int (ts : List Task) (c : Int) (h0 : 0 ≤ c) (h1 : c < ts.length) :
    ∃ t, ts[c.toNat]? = some t ∧ index ts c = .ok t := by
  have hlt : c.toNat < ts.length := by omega
  refine ⟨ts[c.toNat], List.getElem?_eq_getElem hlt, ?_⟩
  have := index_ok ts c.toNat hlt
  rwa [Int.toNat_of_nonneg h0] at this

theorem setIndex_ok_int (ts : List Task) (c : Int) (t : Task) (h0 : 0 ≤ c)
    (h1 : c < ts.length) : setIndex ts c t = .ok (ts.set c.toNat t) := by
  unfold setIndex
  have h : ¬ (c < 0 ∨ (ts.length : Int) ≤ c) := by omega
  rw [if_neg h]

theorem saveAndReport_saveLog (fs : FsOutcome) (f : String) (ts : List Task)
    (w : World) : (saveAndReport fs f ts w).saveLog = w.saveLog ++ [(f, ts)] := by
  cases fs with
  | writeFails err written =>
    simp only [saveAndReport, SaveTask, reportSaveError]
    split_ifs <;> rfl
  | _ => rfl

theorem SaveTask_saveLog (fs : FsOutcome) (f : String) (ts : List Task)
    (w : World) : (SaveTask fs f ts w).2.saveLog = w.saveLog ++ [(f, ts)] := by
  cases fs with
  | writeFails err written =>
    simp only [SaveTask]
    split_ifs <;> rfl
  | _ => rfl

/-! ## Theorems on single steps -/

/-- C2. Delete-completed in List mode: the key "d" yields exactly the tasks
with `completed = false`, in their original order and unchanged (the backward
removal loop computes `filter`), every other field of the session, the mode
List included, stays as it was, and one `SaveTask` call with the resulting
list is issued. -/
theorem delete_completed_is_filter (tiUpdate : TextInput → String → TextInput × Cmd)
    (fs : FsOutcome) (m : model) (w : World) (hmode : m.currentMode = modeList) :
    Update tiUpdate fs m (Msg.KeyMsg "d") w
        = .ok ({ m with tasks := m.tasks.filter (fun t => !t.completed) }, Cmd.nil,
               saveAndReport fs m.fileName (m.tasks.filter (fun t => !t.completed)) w)
      ∧ (saveAndReport fs m.fileName (m.tasks.filter (fun t => !t.completed)) w).saveLog
          = w.saveLog ++ [(m.fileName, m.tasks.filter (fun t => !t.completed))]
      ∧ ({ m with tasks := m.tasks.filter (fun t => !t.completed) } : model).currentMode
          = modeList := by
  refine ⟨?_, saveAndReport_saveLog _ _ _ _, hmode⟩
  have hloop := deleteCompletedLoop_eq m.tasks.length m.tasks (le_refl _)
  simp only [List.take_length, List.drop_length, List.append_nil] at hloop
  simp [Update, UpdateList, hmode, modeIdle, modeList, modeAdd, hloop, bind, Except.bind]

/-- Witness of C2: scenario 3, where only task "b" survives. -/
theorem delete_completed_is_filter_witness :
    scenario3.currentMode = modeList
      ∧ Update typing FsOutcome.ok scenario3 (Msg.KeyMsg "d") World.empty
          = .ok ({ scenario3 with tasks := [⟨"b", false⟩] }, Cmd.nil,
                 saveAndReport FsOutcome.ok scenario3.fileName [⟨"b", false⟩] World.empty) :=
  ⟨by decide, (delete_completed_is_filter typing FsOutcome.ok scenario3 World.empty (by decide)).1⟩

/-- C3. Single delete: in Delete mode, when the pending input (the text the
widget holds at confirm) parses as an integer `n` with `1 ≤ n ≤ len(tasks)`,
"enter" yields the task list with exactly the element at index `n-1` removed
(so one shorter, every other task kept in order), issues one `SaveTask` call
with that list, clears the pending input and moves to Idle. -/
theorem single_delete_removes_nth (tiUpdate : TextInput → String → TextInput × Cmd)
    (fs : FsOutcome) (m : model) (w : World) (n : Int)
    (hmode : m.currentMode = modeDelete)
    (hparse : Atoi (tiUpdate m.textinput "enter").1.value = some n)
    (hlo : 1 ≤ n) (hhi : n ≤ (m.tasks.length : Int)) :
    Update tiUpdate fs m (Msg.KeyMsg "enter") w
        = .ok ({ m with tasks := m.tasks.eraseIdx (n - 1).toNat,
                        textinput := (tiUpdate m.textinput "enter").1.Reset,
                        currentMode := modeIdle },
               (tiUpdate m.textinput "enter").2,
               (SaveTask fs m.fileName (m.tasks.eraseIdx (n - 1).toNat) w).2)
      ∧ (SaveTask fs m.fileName (m.tasks.eraseIdx (n - 1).toNat) w).2.saveLog
          = w.saveLog ++ [(m.fileName, m.tasks.eraseIdx (n - 1).toNat)]
      ∧ (m.tasks.eraseIdx (n - 1).toNat).length + 1 = m.tasks.length
      ∧ (tiUpdate m.textinput "enter").1.Reset.value = "" := by
  have hk : ((n - 1).toNat : Int) = n - 1 := Int.toNat_of_nonneg (by omega)
  have hk1 : (((n - 1).toNat + 1 : Nat) : Int) = n := by push_cast; omega
  have hlt : (n - 1).toNat < m.tasks.length := by omega
  refine ⟨?_, SaveTask_saveLog _ _ _ _, ?_, rfl⟩
  · have ha := sliceTo_ok m.tasks (n - 1).toNat (le_of_lt hlt)
    have hb := sliceFrom_ok m.tasks ((n - 1).toNat + 1) hlt
    rw [hk] at ha
    rw [hk1] at hb
    have hn : n > 0 ∧ n ≤ (m.tasks.length : Int) := ⟨by omega, hhi⟩
    simp [Update, UpdateDelete, hmode, modeIdle, modeList, modeAdd, modeDelete, hparse, hn, ha, hb,
      bind, Except.bind, List.eraseIdx_eq_take_drop_succ]
  · rw [List.length_eraseIdx_of_lt hlt]; omega

/-- Witness of C3: scenario 5, where the second of two tasks is removed. -/
theorem single_delete_removes_nth_witness :
    scenario5.currentMode = modeDelete
      ∧ Atoi (typing scenario5.textinput "enter").1.value = some 2
      ∧ Update typing FsOutcome.ok scenario5 (Msg.KeyMsg "enter") World.empty
          = .ok ({ scenario5 with tasks := [⟨"a", true⟩],
                                  textinput := (typing scenario5.textinput "enter").1.Reset,
                                  currentMode := modeIdle },
                 (typing scenario5.textinput "enter").2,
                 (SaveTask FsOutcome.ok scenario5.fileName [⟨"a", true⟩] World.empty).2) :=
  ⟨by decide, by decide,
    (single_delete_removes_nth typing FsOutcome.ok scenario5 World.empty 2 (by decide) (by decide)
      (by decide) (by decide)).1⟩

/-- C4. Invalid delete input: in Delete mode, when the pending input (the text
the widget holds at confirm) does not parse as an integer, or parses to an `n`
with `n < 1` or `n > len(tasks)`, "enter" leaves the task list and the world
unchanged (no `SaveTask` call), keeps the mode Delete, empties the pending
input and sets the prompt hint to the error guidance. -/
theorem invalid_delete_rejected (tiUpdate : TextInput → String → TextInput × Cmd)
    (fs : FsOutcome) (m : model) (w : World)
    (hmode : m.currentMode = modeDelete)
    (hbad : Atoi (tiUpdate m.textinput "enter").1.value = none
      ∨ ∃ n, Atoi (tiUpdate m.textinput "enter").1.value = some n
          ∧ (n < 1 ∨ (m.tasks.length : Int) < n)) :
    Update tiUpdate fs m (Msg.KeyMsg "enter") w
      = .ok ({ m with textinput :=
                 { value := "", Placeholder := "Invalid task number! Try again.",
                   focus := (tiUpdate m.textinput "enter").1.focus } },
             (tiUpdate m.textinput "enter").2, w) := by
  rcases hbad with h | ⟨n, h, hn⟩
  · simp [Update, UpdateDelete, hmode, modeIdle, modeList, modeAdd, modeDelete, h, TextInput.SetValue]
  · have hn2 : ¬ (n > 0 ∧ n ≤ (m.tasks.length : Int)) := by omega
    simp [Update, UpdateDelete, hmode, modeIdle, modeList, modeAdd, modeDelete, h, hn2, TextInput.SetValue]

/-- Witness of C4: scenario 4, task number 5 of a two-item list. -/
theorem invalid_delete_rejected_witness :
    scenario4.currentMode = modeDelete
      ∧ Atoi (typing scenario4.textinput "enter").1.value = some 5
      ∧ Update typing FsOutcome.ok scenario4 (Msg.KeyMsg "enter") World.empty
          = .ok ({ scenario4 with textinput :=
                     { value := "", Placeholder := "Invalid task number! Try again.",
                       focus := true } },
                 Cmd.nil, World.empty) :=
  ⟨by decide, by decide,
    invalid_delete_rejected typing FsOutcome.ok scenario4 World.empty (by decide)
      (Or.inr ⟨5, by decide, Or.inr (by decide)⟩)⟩

/-- C5. Add: in Add mode, when the pending input `s` (the text the widget
holds at confirm) is not empty, "enter" yields `tasks ++ [Task{s, false}]`,
issues one `SaveTask` call with that list, clears the pending input and moves
to Idle. -/
theorem add_appends_task (tiUpdate : TextInput → String → TextInput × Cmd)
    (fs : FsOutcome) (m : model) (w : World)
    (hmode : m.currentMode = modeAdd)
    (hne : (tiUpdate m.textinput "enter").1.value ≠ "") :
    Update tiUpdate fs m (Msg.KeyMsg "enter") w
        = .ok ({ m with
                   tasks := m.tasks ++ [⟨(tiUpdate m.textinput "enter").1.value, false⟩],
                   textinput := (tiUpdate m.textinput "enter").1.Reset,
                   currentMode := modeIdle },
               (tiUpdate m.textinput "enter").2,
               saveAndReport fs m.fileName
                 (m.tasks ++ [⟨(tiUpdate m.textinput "enter").1.value, false⟩]) w)
      ∧ (saveAndReport fs m.fileName
            (m.tasks ++ [⟨(tiUpdate m.textinput "enter").1.value, false⟩]) w).saveLog
          = w.saveLog
              ++ [(m.fileName, m.tasks ++ [⟨(tiUpdate m.textinput "enter").1.value, false⟩])]
      ∧ (tiUpdate m.textinput "enter").1.Reset.value = "" := by
  refine ⟨?_, saveAndReport_saveLog _ _ _ _, rfl⟩
  simp [Update, UpdateAdd, hmode, modeIdle, modeList, modeAdd, hne]

/-- Witness of C5: scenario 1, the first task "buy milk" is added and saved. -/
theorem add_appends_task_witness :
    scenario1.currentMode = modeAdd
      ∧ (typing scenario1.textinput "enter").1.value ≠ ""
      ∧ Update typing FsOutcome.ok scenario1 (Msg.KeyMsg "enter") World.empty
          = .ok ({ scenario1 with
                     tasks := [⟨"buy milk", false⟩],
                     textinput := (typing scenario1.textinput "enter").1.Reset,
                     currentMode := modeIdle },
                 Cmd.nil,
                 saveAndReport FsOutcome.ok scenario1.fileName [⟨"buy milk", false⟩] World.empty) :=
  ⟨by decide, by decide,
    (add_appends_task typing FsOutcome.ok scenario1 World.empty (by decide) (by decide)).1⟩

/-- C7. Toggle: in List mode with `0 ≤ cursor < len(tasks)`, "enter" negates
the completed flag of `tasks[cursor]` and changes nothing else: the list keeps
its length and its descriptions, every other task is untouched, cursor, mode
and input stay, and one `SaveTask` call with the resulting list is issued. -/
theorem toggle_flips_only_cursor (tiUpdate : TextInput → String → TextInput × Cmd)
    (fs : FsOutcome) (m : model) (w : World)
    (hmode : m.currentMode = modeList)
    (h0 : 0 ≤ m.cursor) (h1 : m.cursor < (m.tasks.length : Int)) :
    ∃ t tasks, m.tasks[m.cursor.toNat]? = some t
      ∧ tasks = m.tasks.set m.cursor.toNat { t with completed := !t.completed }
      ∧ Update tiUpdate fs m (Msg.KeyMsg "enter") w
          = .ok ({ m with tasks := tasks }, Cmd.nil, saveAndReport fs m.fileName tasks w)
      ∧ (saveAndReport fs m.fileName tasks w).saveLog = w.saveLog ++ [(m.fileName, tasks)]
      ∧ tasks.length = m.tasks.length
      ∧ tasks.map Task.description = m.tasks.map Task.description
      ∧ tasks[m.cursor.toNat]? = some ⟨t.description, !t.completed⟩
      ∧ ∀ i, i ≠ m.cursor.toNat → tasks[i]? = m.tasks[i]? := by
  obtain ⟨t, ht, hidx⟩ := index_ok_int m.tasks m.cursor h0 h1
  have hlt : m.cursor.toNat < m.tasks.length := by omega
  refine ⟨t, _, ht, rfl, ?_, saveAndReport_saveLog _ _ _ _, by simp, ?_, ?_, ?_⟩
  · simp [Update, UpdateList, hmode, modeIdle, modeList, modeAdd, h1, hidx,
      setIndex_ok_int m.tasks m.cursor _ h0 h1, bind, Except.bind]
  · apply List.ext_getElem? ; intro i
    by_cases hi : m.cursor.toNat = i
    · subst hi
      have hget : m.tasks[m.cursor.toNat] = t := by
        rw [List.getElem?_eq_getElem hlt] at ht
        exact Option.some.inj ht
      simp [List.getElem?_map, List.getElem?_set, hlt, hget]
    · simp [List.getElem?_map, List.getElem?_set, hi]
  · simp [List.getElem?_set, hlt]
  · intro i hi
    simp [List.getElem?_set, Ne.symm hi]

/-- Witness of C7: scenario 2 satisfies the hypotheses, so the toggle is as stated. -/
theorem toggle_flips_only_cursor_witness :
    scenario2.currentMode = modeList ∧ (0 : Int) ≤ scenario2.cursor
      ∧ scenario2.cursor < (scenario2.tasks.length : Int)
      ∧ ∃ t tasks, scenario2.tasks[scenario2.cursor.toNat]? = some t
          ∧ tasks = scenario2.tasks.set scenario2.cursor.toNat { t with completed := !t.completed }
          ∧ Update typing FsOutcome.ok scenario2 (Msg.KeyMsg "enter") World.empty
              = .ok ({ scenario2 with tasks := tasks }, Cmd.nil,
                     saveAndReport FsOutcome.ok scenario2.fileName tasks World.empty)
          ∧ (saveAndReport FsOutcome.ok scenario2.fileName tasks World.empty).saveLog
              = World.empty.saveLog ++ [(scenario2.fileName, tasks)]
          ∧ tasks.length = scenario2.tasks.length
          ∧ tasks.map Task.description = scenario2.tasks.map Task.description
          ∧ tasks[scenario2.cursor.toNat]? = some ⟨t.description, !t.completed⟩
          ∧ ∀ i, i ≠ scenario2.cursor.toNat → tasks[i]? = scenario2.tasks[i]? :=
  ⟨by decide, by decide, by decide,
    toggle_flips_only_cursor typing FsOutcome.ok scenario2 World.empty (by decide) (by decide)
      (by decide)⟩

theorem deleteCompletedLoop_full (ts : List Task) :
    deleteCompletedLoop ts.length ts = .ok (ts.filter (fun t => !t.completed)) := by
  have hloop := deleteCompletedLoop_eq ts.length ts (le_refl _)
  simpa only [List.take_length, List.drop_length, List.append_nil] using hloop

theorem StepOK_same (fs : FsOutcome) (m m1 : model) (c : Cmd) (w : World)
    (hf : m1.fileName = m.fileName) (hc : 0 ≤ m.cursor → 0 ≤ m1.cursor)
    (ht : m1.tasks = m.tasks) : StepOK fs m w (m1, c, w) :=
  ⟨hf, hc, Or.inl ⟨ht, rfl⟩, fun t h => Or.inr ⟨t, ht ▸ h, rfl⟩⟩

theorem UpdateIdle_sound (fs : FsOutcome) (m : model) (k : String) (w : World)
    (r : model × Cmd × World) (h : UpdateIdle m k w = .ok r) : StepOK fs m w r := by
  unfold UpdateIdle at h
  split_ifs at h <;> cases h <;> exact StepOK_same _ _ _ _ _ rfl (fun h => h) rfl

theorem UpdateAdd_sound (tiUpdate : TextInput → String → TextInput × Cmd)
    (fs : FsOutcome) (m : model) (k : String) (w : World)
    (r : model × Cmd × World) (h : UpdateAdd tiUpdate fs m k w = .ok r) :
    StepOK fs m w r := by
  simp only [UpdateAdd, ne_eq, ite_not] at h
  split_ifs at h with h1 h2 h3
  · cases h; exact StepOK_same _ _ _ _ _ rfl (fun h => h) rfl
  · cases h
    refine ⟨rfl, fun h => h, Or.inr (Or.inl rfl), ?_⟩
    intro t ht
    rcases List.mem_append.mp ht with ht | ht
    · exact Or.inr ⟨t, ht, rfl⟩
    · left
      rw [List.mem_singleton] at ht
      subst ht
      exact h2
  all_goals cases h; exact StepOK_same _ _ _ _ _ rfl (fun h => h) rfl

theorem UpdateList_sound (fs : FsOutcome) (m : model) (k : String) (w : World)
    (r : model × Cmd × World) (h : UpdateList fs m k w = .ok r) : StepOK fs m w r := by
  unfold UpdateList at h
  split_ifs at h with h1 h2 h3 h4 h5 h6 h7 h8
  · cases h; exact StepOK_same _ _ _ _ _ rfl (fun _ => by show 0 ≤ m.cursor - 1; omega) rfl
  · cases h; exact StepOK_same _ _ _ _ _ rfl (fun h => h) rfl
  · cases h; exact StepOK_same _ _ _ _ _ rfl (fun _ => by show 0 ≤ m.cursor + 1; omega) rfl
  · cases h; exact StepOK_same _ _ _ _ _ rfl (fun h => h) rfl
  · by_cases h0 : 0 ≤ m.cursor
    · obtain ⟨t, ht, hidx⟩ := index_ok_int m.tasks m.cursor h0 h6
      rw [hidx] at h
      simp only [bind, Except.bind, setIndex_ok_int m.tasks m.cursor _ h0 h6] at h
      cases h
      refine ⟨rfl, fun h => h, Or.inr (Or.inl rfl), ?_⟩
      intro t1 ht1
      right
      rcases List.mem_or_eq_of_mem_set ht1 with hm | he
      · exact ⟨t1, hm, rfl⟩
      · exact ⟨t, List.getElem?_mem ht, by rw [he]⟩
    · have hi : index m.tasks m.cursor = .error .indexOutOfRange := by
        unfold index; rw [if_pos (by omega)]
      rw [hi] at h
      cases h
  · cases h; exact StepOK_same _ _ _ _ _ rfl (fun h => h) rfl
  · rw [deleteCompletedLoop_full] at h
    cases h
    refine ⟨rfl, fun h => h, Or.inr (Or.inl rfl), ?_⟩
    intro t ht
    exact Or.inr ⟨t, (List.mem_filter.mp ht).1, rfl⟩
  · cases h; exact StepOK_same _ _ _ _ _ rfl (fun h => h) rfl
  · cases h; exact StepOK_same _ _ _ _ _ rfl (fun h => h) rfl

theorem singleDelete_slices (ts : List Task) (n : Int) (hn : n > 0 ∧ n ≤ (ts.length : Int)) :
    sliceTo ts (n - 1) = .ok (ts.take (n - 1).toNat)
      ∧ sliceFrom ts n = .ok (ts.drop ((n - 1).toNat + 1)) := by
  have hk : ((n - 1).toNat : Int) = n - 1 := Int.toNat_of_nonneg (by omega)
  have hk1 : (((n - 1).toNat + 1 : Nat) : Int) = n := by push_cast; omega
  have hlt : (n - 1).toNat < ts.length := by omega
  have ha := sliceTo_ok ts (n - 1).toNat (le_of_lt hlt)
  have hb := sliceFrom_ok ts ((n - 1).toNat + 1) hlt
  rw [hk] at ha
  rw [hk1] at hb
  exact ⟨ha, hb⟩

theorem UpdateDelete_sound (tiUpdate : TextInput → String → TextInput × Cmd)
    (fs : FsOutcome) (m : model) (k : String) (w : World)
    (r : model × Cmd × World) (h : UpdateDelete tiUpdate fs m k w = .ok r) :
    StepOK fs m w r := by
  simp only [UpdateDelete] at h
  split_ifs at h with h1 h2
  · split at h
    · rename_i n hn
      split_ifs at h with h3
      · obtain ⟨ha, hb⟩ := singleDelete_slices m.tasks n h3
        simp only [ha, hb, bind, Except.bind] at h
        cases h
        refine ⟨rfl, fun h => h, Or.inr (Or.inr rfl), ?_⟩
        intro t ht
        right
        refine ⟨t, ?_, rfl⟩
        rcases List.mem_append.mp ht with ht | ht
        · exact List.mem_of_mem_take ht
        · exact List.mem_of_mem_drop ht
      · cases h; exact StepOK_same _ _ _ _ _ rfl (fun h => h) rfl
    · cases h; exact StepOK_same _ _ _ _ _ rfl (fun h => h) rfl
  · cases h; exact StepOK_same _ _ _ _ _ rfl (fun h => h) rfl
  · cases h; exact StepOK_same _ _ _ _ _ rfl (fun h => h) rfl

theorem Update_sound (tiUpdate : TextInput → String → TextInput × Cmd)
    (fs : FsOutcome) (m : model) (msg : Msg) (w : World)
    (r : model × Cmd × World) (h : Update tiUpdate fs m msg w = .ok r) :
    StepOK fs m w r := by
  cases msg with
  | other => cases h; exact StepOK_same _ _ _ _ _ rfl (fun h => h) rfl
  | KeyMsg k =>
    simp only [Update] at h
    split_ifs at h
    · exact UpdateIdle_sound _ _ _ _ _ h
    · exact UpdateAdd_sound _ _ _ _ _ _ h
    · exact UpdateList_sound _ _ _ _ _ h
    · exact UpdateDelete_sound _ _ _ _ _ _ h
    · cases h; exact StepOK_same _ _ _ _ _ rfl (fun h => h) rfl

theorem Update_total (tiUpdate : TextInput → String → TextInput × Cmd)
    (fs : FsOutcome) (m : model) (msg : Msg) (w : World) (hc : 0 ≤ m.cursor) :
    ∃ r, Update tiUpdate fs m msg w = .ok r := by
  cases msg with
  | other => exact ⟨_, rfl⟩
  | KeyMsg k =>
    simp only [Update]
    split_ifs
    · unfold UpdateIdle
      split_ifs <;> exact ⟨_, rfl⟩
    · simp only [UpdateAdd, ne_eq, ite_not]
      split_ifs <;> exact ⟨_, rfl⟩
    · unfold UpdateList
      split_ifs with h1 h2 h3 h4 h5 h6 h7 h8
      all_goals first | exact ⟨_, rfl⟩ | skip
      · obtain ⟨t, _, hidx⟩ := index_ok_int m.tasks m.cursor hc h6
        rw [hidx]
        simp only [bind, Except.bind, setIndex_ok_int m.tasks m.cursor _ hc h6]
        exact ⟨_, rfl⟩
      · rw [deleteCompletedLoop_full]
        exact ⟨_, rfl⟩
    · simp only [UpdateDelete]
      split_ifs with h1 h2
      · split
        · rename_i n hn
          split_ifs with h3
          · obtain ⟨ha, hb⟩ := singleDelete_slices m.tasks n h3
            simp only [ha, hb, bind, Except.bind]
            exact ⟨_, rfl⟩
          · exact ⟨_, rfl⟩
        · exact ⟨_, rfl⟩
      · exact ⟨_, rfl⟩
      · exact ⟨_, rfl⟩
    · exact ⟨_, rfl⟩

theorem run_invariant (P : model → World → Prop) (Q : Event → Prop)
    (htot : ∀ e m w, Q e → P m w → ∃ r, Update e.tiUpdate e.fs m e.msg w = .ok r)
    (hstep : ∀ e m w r, Q e → P m w → Update e.tiUpdate e.fs m e.msg w = .ok r →
      P r.1 r.2.2) :
    ∀ (es : List Event) (m : model) (w : World), (∀ e ∈ es, Q e) → P m w →
      ∃ m1 w1, run es m w = .ok (m1, w1) ∧ P m1 w1 := by
  intro es
  induction es with
  | nil => intro m w _ hP; exact ⟨m, w, rfl, hP⟩
  | cons e es ih =>
    intro m w hQ hP
    have hQe : Q e := hQ e (List.mem_cons_self _ _)
    obtain ⟨r, hr⟩ := htot e m w hQe hP
    have hP1 := hstep e m w r hQe hP hr
    obtain ⟨m1, w1, hrun, hP2⟩ :=
      ih r.1 r.2.2 (fun e1 he1 => hQ e1 (List.mem_cons_of_mem _ he1)) hP1
    refine ⟨m1, w1, ?_, hP2⟩
    obtain ⟨a, b, c⟩ := r
    simp only [run, hr]
    exact hrun

theorem saveAndReport_disk (f : String) (ts : List Task) (w : World) :
    (saveAndReport FsOutcome.ok f ts w).disk f = some (ts.map taskRecord) := by
  simp [saveAndReport, SaveTask]

theorem SaveTask_disk (f : String) (ts : List Task) (w : World) :
    (SaveTask FsOutcome.ok f ts w).2.disk f = some (ts.map taskRecord) := by
  simp [SaveTask]

/-- C6. No empty task is ever created.  In Add mode, "enter" with an empty
pending input (the text the widget holds at confirm) adds no task, leaves the
world untouched (no `SaveTask` call) and returns to Idle.  Consequently, from
any session whose tasks all have a non-empty description (cursor not negative,
as in the initial session), every sequence of events runs to a session whose
tasks all have a non-empty description. -/
theorem no_empty_task_created :
    (∀ (tiUpdate : TextInput → String → TextInput × Cmd) (fs : FsOutcome)
        (m : model) (w : World),
        m.currentMode = modeAdd → (tiUpdate m.textinput "enter").1.value = "" →
        Update tiUpdate fs m (Msg.KeyMsg "enter") w
          = .ok ({ m with textinput := (tiUpdate m.textinput "enter").1.Reset,
                          currentMode := modeIdle },
                 (tiUpdate m.textinput "enter").2, w))
      ∧ ∀ (es : List Event) (m : model) (w : World),
          0 ≤ m.cursor → (∀ t ∈ m.tasks, t.description ≠ "") →
          ∃ m1 w1, run es m w = .ok (m1, w1) ∧ ∀ t ∈ m1.tasks, t.description ≠ "" := by
  constructor
  · intro tiUpdate fs m w hmode hempty
    simp [Update, UpdateAdd, hmode, modeIdle, modeAdd, hempty]
  · intro es m w hc hne
    obtain ⟨m1, w1, hrun, _, h1⟩ :=
      run_invariant (fun m _ => 0 ≤ m.cursor ∧ ∀ t ∈ m.tasks, t.description ≠ "")
        (fun _ => True)
        (fun e m w _ hP => Update_total e.tiUpdate e.fs m e.msg w hP.1)
        (fun e m w r _ hP hr => by
          obtain ⟨_, hcur, _, hdesc⟩ := Update_sound e.tiUpdate e.fs m e.msg w r hr
          refine ⟨hcur hP.1, fun t ht => ?_⟩
          rcases hdesc t ht with h | ⟨t0, ht0, he⟩
          · exact h
          · rw [← he]; exact hP.2 t0 ht0)
        es m w (fun _ _ => trivial) ⟨hc, hne⟩
    exact ⟨m1, w1, hrun, h1⟩

/-- Witness of C6: adding with an empty input and then "x" to one named task. -/
theorem no_empty_task_created_witness :
    (0 : Int) ≤ (initialModel [⟨"a", false⟩]).cursor
      ∧ (∀ t ∈ (initialModel [⟨"a", false⟩]).tasks, t.description ≠ "")
      ∧ ∃ m1 w1,
          run [key "+", key "enter", key "+", key "x", key "enter"]
              (initialModel [⟨"a", false⟩]) World.empty = .ok (m1, w1)
            ∧ ∀ t ∈ m1.tasks, t.description ≠ "" :=
  ⟨by decide, by decide,
    no_empty_task_created.2 [key "+", key "enter", key "+", key "x", key "enter"]
      (initialModel [⟨"a", false⟩]) World.empty (by decide) (by decide)⟩

/-- C10. No rollback on save failure: for every session and every message,
the session that `Update` returns (task list, input, mode, cursor, file name)
and its command are the same whatever the outcome of the `SaveTask` call of
that step, success or failure. -/
theorem no_rollback_on_save_failure (tiUpdate : TextInput → String → TextInput × Cmd)
    (fs1 fs2 : FsOutcome) (m : model) (msg : Msg) (w : World) :
    session (Update tiUpdate fs1 m msg w) = session (Update tiUpdate fs2 m msg w) := by
  cases msg with
  | other => rfl
  | KeyMsg k =>
    simp only [Update]
    split_ifs
    · rfl
    · simp only [UpdateAdd, ne_eq, ite_not]
      split_ifs <;> rfl
    · unfold UpdateList
      split_ifs
      all_goals first | rfl | skip
      · cases index m.tasks m.cursor with
        | error p => rfl
        | ok t =>
          simp only [bind, Except.bind]
          cases setIndex m.tasks m.cursor { t with completed := !t.completed } <;> rfl
      · cases deleteCompletedLoop m.tasks.length m.tasks <;> rfl
    · simp only [UpdateDelete]
      split_ifs
      · split
        · split_ifs
          · cases sliceTo m.tasks (_ - 1) with
            | error p => rfl
            | ok a =>
              simp only [bind, Except.bind]
              cases sliceFrom m.tasks _ <;> rfl
          · rfl
        · rfl
      · rfl
      · rfl
    · rfl

/-- C9 (code defect). A failing save is reported on the error stream by the
toggle, but not by the single delete: on scenario 5 with a file system that
fails, "enter" in Delete mode removes the task, calls `SaveTask` once, and
writes nothing to the error stream, whereas the toggle of scenario 2 under the
same failure writes the error line. -/
theorem single_delete_drops_save_error :
    (SaveTask (FsOutcome.createFails "disk full") scenario5.fileName [⟨"a", true⟩] World.empty).1
        = some "disk full"
      ∧ (Update typing (FsOutcome.createFails "disk full") scenario5 (Msg.KeyMsg "enter") World.empty).toOption.map
          (fun r => (r.1.tasks, r.2.2.saveLog, r.2.2.stderr))
        = some ([⟨"a", true⟩], [("tasks.csv", [⟨"a", true⟩])], [])
      ∧ (Update typing (FsOutcome.createFails "disk full") scenario2 (Msg.KeyMsg "enter") World.empty).toOption.map
          (fun r => r.2.2.stderr)
        = some ["Error saving tasks: disk full\n"] := by
  refine ⟨by decide, by decide, by decide⟩

/-- C1 (code defect). The cursor leaves the task list when the list shrinks:
from the initial session with tasks a (completed) and b, the keys "l", "down",
"d" end in List mode with the single task b and cursor 1; and the keys "l",
"down", "esc", "d", "1", "enter" end with the single task b and cursor 1. -/
theorem cursor_not_clamped_after_delete :
    (run [key "l", key "down", key "d"] (initialModel [⟨"a", true⟩, ⟨"b", false⟩])
        World.empty).toOption.map (fun r => (r.1.currentMode, r.1.cursor, r.1.tasks))
        = some (modeList, 1, [⟨"b", false⟩])
      ∧ (run [key "l", key "down", key "esc", key "d", key "1", key "enter"]
          (initialModel [⟨"a", true⟩, ⟨"b", false⟩])
          World.empty).toOption.map (fun r => (r.1.currentMode, r.1.cursor, r.1.tasks))
        = some (modeIdle, 1, [⟨"b", false⟩]) := by
  refine ⟨by decide, by decide⟩

/-! ## Theorems on the task store -/

theorem decodeRecord_taskRecord (t : Task) : decodeRecord (taskRecord t) = .ok t := by
  obtain ⟨d, c⟩ := t
  cases c <;> simp [decodeRecord, taskRecord, FormatBool]

theorem readLoop_taskRecords (L : List Task) : ∀ (fpr : Nat) (acc : List Task),
    fpr = 0 ∨ fpr = 2 → readLoop fpr (L.map taskRecord) acc = .ok (acc ++ L) := by
  induction L with
  | nil => intro fpr acc _; simp [readLoop]
  | cons t L ih =>
    intro fpr acc hf
    have hlen : (taskRecord t).length = 2 := rfl
    have hck : ¬ (fpr > 0 ∧ (taskRecord t).length ≠ fpr) := by
      rw [hlen]; omega
    have hnext : (if fpr > 0 then fpr else (taskRecord t).length) = 2 := by
      rw [hlen]; split_ifs <;> omega
    simp only [List.map_cons, readLoop, if_neg hck, decodeRecord_taskRecord, bind, Except.bind,
      hnext]
    rw [ih 2 (acc ++ [t]) (Or.inr rfl)]
    simp

/-- C11. Persistence round trip, on records: a successful `SaveTask` leaves
in the file one record per task, in list order, each record being the two
fields `[description, "true" or "false"]`, and `LoadTasks` on that file
returns exactly the saved list. -/
theorem save_load_round_trip (L : List Task) (fileName : String) (w : World) :
    (SaveTask FsOutcome.ok fileName L w).2.disk fileName = some (L.map taskRecord)
      ∧ (L.map taskRecord).length = L.length
      ∧ (∀ i (h : i < L.length),
          (L.map taskRecord)[i]? = some [L[i].description, if L[i].completed then "true" else "false"])
      ∧ LoadTasks (SaveTask FsOutcome.ok fileName L w).2 fileName = .ok L := by
  refine ⟨SaveTask_disk _ _ _, by simp, ?_, ?_⟩
  · intro i h
    simp [List.getElem?_map, List.getElem?_eq_getElem h, taskRecord, FormatBool]
  · simp only [LoadTasks, SaveTask_disk]
    simpa using readLoop_taskRecords L 0 [] (Or.inl rfl)

theorem LoadTasks_of_records (w : World) (f : String) (ts : List Task)
    (h : w.disk f = some (ts.map taskRecord)) : LoadTasks w f = .ok ts := by
  simp only [LoadTasks, h]
  simpa using readLoop_taskRecords ts 0 [] (Or.inl rfl)

/-- C8. Memory/disk synchronisation.  Whenever a step changes the task list,
the step issues a `SaveTask` call whose arguments are the session's file name
and exactly the resulting task list.  Hence, when every save succeeds (every
file operation of it, outcome `FsOutcome.ok`; a save whose write or flush
fails is not one, whatever `SaveTask` returns) and the session starts with the
tasks that `LoadTasks` reads from the persisted file (cursor not negative, as
in the initial session), every sequence of events runs to a session whose
tasks are exactly what `LoadTasks` reads from the persisted file.  The same
holds on records: when the file starts out holding the records of the tasks,
it holds the records of the tasks at the end. -/
theorem memory_disk_synchronised :
    (∀ (tiUpdate : TextInput → String → TextInput × Cmd) (fs : FsOutcome)
        (m : model) (msg : Msg) (w : World) (m1 : model) (c : Cmd) (w1 : World),
        Update tiUpdate fs m msg w = .ok (m1, c, w1) → m1.tasks ≠ m.tasks →
        w1.saveLog = w.saveLog ++ [(m.fileName, m1.tasks)])
      ∧ (∀ (es : List Event) (m : model) (w : World),
          (∀ e ∈ es, e.fs = FsOutcome.ok) → 0 ≤ m.cursor →
          LoadTasks w m.fileName = .ok m.tasks →
          ∃ m1 w1, run es m w = .ok (m1, w1) ∧ LoadTasks w1 m1.fileName = .ok m1.tasks)
      ∧ ∀ (es : List Event) (m : model) (w : World),
          (∀ e ∈ es, e.fs = FsOutcome.ok) → 0 ≤ m.cursor →
          w.disk m.fileName = some (m.tasks.map taskRecord) →
          ∃ m1 w1, run es m w = .ok (m1, w1)
            ∧ w1.disk m1.fileName = some (m1.tasks.map taskRecord) := by
  refine ⟨?_, ?_, ?_⟩
  · intro tiUpdate fs m msg w m1 c w1 h hne
    obtain ⟨_, _, hw, _⟩ := Update_sound tiUpdate fs m msg w (m1, c, w1) h
    rcases hw with ⟨ht, _⟩ | hw | hw
    · exact absurd ht hne
    · simp only at hw; rw [hw]; exact saveAndReport_saveLog _ _ _ _
    · simp only at hw; rw [hw]; exact SaveTask_saveLog _ _ _ _
  · intro es m w hok hc hdisk
    obtain ⟨m1, w1, hrun, _, h1⟩ :=
      run_invariant
        (fun m w => 0 ≤ m.cursor ∧ LoadTasks w m.fileName = .ok m.tasks)
        (fun e => e.fs = FsOutcome.ok)
        (fun e m w _ hP => Update_total e.tiUpdate e.fs m e.msg w hP.1)
        (fun e m w r hQ hP hr => by
          obtain ⟨hf, hcur, hw, _⟩ := Update_sound e.tiUpdate e.fs m e.msg w r hr
          refine ⟨hcur hP.1, ?_⟩
          rw [hQ] at hw
          rcases hw with ⟨ht, hw⟩ | hw | hw
          · rw [hf, ht, hw]; exact hP.2
          · exact LoadTasks_of_records _ _ _ (by rw [hf, hw]; exact saveAndReport_disk _ _ _)
          · exact LoadTasks_of_records _ _ _ (by rw [hf, hw]; exact SaveTask_disk _ _ _))
        es m w hok ⟨hc, hdisk⟩
    exact ⟨m1, w1, hrun, h1⟩
  · intro es m w hok hc hdisk
    obtain ⟨m1, w1, hrun, _, h1⟩ :=
      run_invariant
        (fun m w => 0 ≤ m.cursor ∧ w.disk m.fileName = some (m.tasks.map taskRecord))
        (fun e => e.fs = FsOutcome.ok)
        (fun e m w _ hP => Update_total e.tiUpdate e.fs m e.msg w hP.1)
        (fun e m w r hQ hP hr => by
          obtain ⟨hf, hcur, hw, _⟩ := Update_sound e.tiUpdate e.fs m e.msg w r hr
          refine ⟨hcur hP.1, ?_⟩
          rw [hQ] at hw
          rcases hw with ⟨ht, hw⟩ | hw | hw
          · rw [hf, ht, hw]; exact hP.2
          · rw [hf, hw]; exact saveAndReport_disk _ _ _
          · rw [hf, hw]; exact SaveTask_disk _ _ _)
        es m w hok ⟨hc, hdisk⟩
    exact ⟨m1, w1, hrun, h1⟩

/-- Witness of C8: the session loaded from a file of two one-field records;
the first task is toggled, "x" is added, the completed task is deleted. -/
theorem memory_disk_synchronised_witness :
    (∀ e ∈ [key "l", key "enter", key "esc", key "+", key "x", key "enter", key "l", key "d"],
        e.fs = FsOutcome.ok)
      ∧ (0 : Int) ≤ (initialModel [⟨"a", false⟩, ⟨"b", false⟩]).cursor
      ∧ LoadTasks World.oneField (initialModel [⟨"a", false⟩, ⟨"b", false⟩]).fileName
          = .ok (initialModel [⟨"a", false⟩, ⟨"b", false⟩]).tasks
      ∧ ∃ m1 w1,
          run [key "l", key "enter", key "esc", key "+", key "x", key "enter", key "l", key "d"]
              (initialModel [⟨"a", false⟩, ⟨"b", false⟩]) World.oneField = .ok (m1, w1)
            ∧ LoadTasks w1 m1.fileName = .ok m1.tasks :=
  ⟨by simp [key], by decide, by rfl,
    memory_disk_synchronised.2.1
      [key "l", key "enter", key "esc", key "+", key "x", key "enter", key "l", key "d"]
      (initialModel [⟨"a", false⟩, ⟨"b", false⟩]) World.oneField (by simp [key])
      (by decide) (by rfl)⟩

/-- A save whose deferred flush fails is not reported by any path: `SaveTask`
returns nil although none of the records reached the file, so nothing is
written to the error stream. -/
theorem flush_failure_returns_nil :
    (SaveTask (FsOutcome.flushFails 0) "tasks.csv" [⟨"a", false⟩] World.empty).1 = none
      ∧ (SaveTask (FsOutcome.flushFails 0) "tasks.csv" [⟨"a", false⟩] World.empty).2.disk
          "tasks.csv" = some []
      ∧ (saveAndReport (FsOutcome.flushFails 0) "tasks.csv" [⟨"a", false⟩]
          World.empty).stderr = [] := by
  refine ⟨by decide, by decide, by decide⟩

/-! ## Theorems on cursor movement, cancel and the Idle mode -/

/-- C13 (code defect). Cursor-down is not `min(len(tasks)-1, cursor+1)` on a
List-mode session that the keys reach: the session `staleCursor`, the result
of "l", "down", "d" on the tasks a (completed) and b, has one task and cursor
1, because delete-completed did not clamp the cursor; "down" leaves the cursor
at 1, while the minimum is 0. -/
theorem cursor_down_not_min_when_stale :
    (run [key "l", key "down", key "d"] (initialModel [⟨"a", true⟩, ⟨"b", false⟩])
        World.empty).toOption.map (fun r => r.1) = some staleCursor
      ∧ staleCursor.currentMode = modeList ∧ staleCursor.tasks ≠ []
      ∧ (Update typing FsOutcome.ok staleCursor (Msg.KeyMsg "down") World.empty).toOption.map
          (fun r => r.1.cursor) = some 1
      ∧ min ((staleCursor.tasks.length : Int) - 1) (staleCursor.cursor + 1) = 0 := by
  refine ⟨by decide, by decide, by decide, by decide, by decide⟩

/-- Cursor-up in List mode with a cursor that is not negative sets the cursor
to `max(0, cursor-1)` and leaves every other field and the world unchanged. -/
theorem cursor_up_is_max (tiUpdate : TextInput → String → TextInput × Cmd)
    (fs : FsOutcome) (m : model) (w : World)
    (hmode : m.currentMode = modeList) (h0 : 0 ≤ m.cursor) :
    Update tiUpdate fs m (Msg.KeyMsg "up") w
      = .ok ({ m with cursor := max 0 (m.cursor - 1) }, Cmd.nil, w) := by
  obtain ⟨tasks, ti, mode, cursor, fileName⟩ := m
  simp only at hmode h0
  by_cases hpos : cursor > 0
  · have hmax : max 0 (cursor - 1) = cursor - 1 := max_eq_right (by omega)
    simp [Update, UpdateList, hmode, modeIdle, modeList, modeAdd, hpos, hmax]
  · have hz : cursor = 0 := by omega
    subst hz
    simp [Update, UpdateList, hmode, modeIdle, modeList, modeAdd]

/-- Cursor-down in List mode with a cursor of at most `len(tasks)-1` sets the
cursor to `min(len(tasks)-1, cursor+1)` and leaves every other field and the
world unchanged. -/
theorem cursor_down_is_min (tiUpdate : TextInput → String → TextInput × Cmd)
    (fs : FsOutcome) (m : model) (w : World)
    (hmode : m.currentMode = modeList) (h1 : m.cursor ≤ (m.tasks.length : Int) - 1) :
    Update tiUpdate fs m (Msg.KeyMsg "down") w
      = .ok ({ m with cursor := min ((m.tasks.length : Int) - 1) (m.cursor + 1) },
             Cmd.nil, w) := by
  obtain ⟨tasks, ti, mode, cursor, fileName⟩ := m
  simp only at hmode h1
  by_cases hlt : cursor < (tasks.length : Int) - 1
  · have hmin : min ((tasks.length : Int) - 1) (cursor + 1) = cursor + 1 :=
      min_eq_right (by omega)
    simp [Update, UpdateList, hmode, modeIdle, modeList, modeAdd, hlt, hmin]
  · have he : cursor = (tasks.length : Int) - 1 := by omega
    have hmin : min ((tasks.length : Int) - 1) (cursor + 1) = cursor := by
      rw [he]; exact min_eq_left (by omega)
    simp [Update, UpdateList, hmode, modeIdle, modeList, modeAdd, hlt, hmin]

/-- C14 (code defect). Delete-completed does not re-clamp the cursor: with the
cursor on the last of two tasks, "d" leaves one task and the cursor at 1,
where `min(1, len-1)` is 0; and when both tasks are completed, "d" leaves no
task and the cursor at 1, where the claim asks for 0. -/
theorem bulk_delete_keeps_stale_cursor :
    (Update typing FsOutcome.ok cursorAtEnd (Msg.KeyMsg "d") World.empty).toOption.map
        (fun r => (r.1.tasks, r.1.cursor)) = some ([⟨"b", false⟩], 1)
      ∧ min cursorAtEnd.cursor ((([⟨"b", false⟩] : List Task).length : Int) - 1) = 0
      ∧ (Update typing FsOutcome.ok allCompleted (Msg.KeyMsg "d") World.empty).toOption.map
        (fun r => (r.1.tasks, r.1.cursor)) = some ([], 1) := by
  refine ⟨by decide, by decide, by decide⟩

/-- Outside the sessions that a run reaches: with a negative cursor the guard
`m.cursor < len(m.tasks)` of the toggle holds on an empty list and the index
`m.tasks[-1]` panics.  No run produces such a cursor (`run_cursor_nonneg`). -/
theorem toggle_panics_on_negative_cursor :
    negativeCursor.tasks = [] ∧ negativeCursor.currentMode = modeList
      ∧ Update typing FsOutcome.ok negativeCursor (Msg.KeyMsg "enter") World.empty
          = .error .indexOutOfRange := by
  refine ⟨by decide, by decide, by rfl⟩

theorem run_cursor_nonneg (es : List Event) (m m1 : model) (w w1 : World)
    (hc : 0 ≤ m.cursor) (hrun : run es m w = .ok (m1, w1)) : 0 ≤ m1.cursor := by
  obtain ⟨m2, w2, h2, hP⟩ :=
    run_invariant (fun m _ => 0 ≤ m.cursor) (fun _ => True)
      (fun e m w _ hP => Update_total e.tiUpdate e.fs m e.msg w hP)
      (fun e m w r _ hP hr => (Update_sound e.tiUpdate e.fs m e.msg w r hr).2.1 hP)
      es m w (fun _ _ => trivial) hc
  rw [hrun] at h2
  cases h2
  exact hP

/-- C15. Confirm is disabled on an empty list: for every session without
tasks, "enter" in List mode returns the session and the world unchanged (no
`SaveTask` call), for every cursor value that is not negative, and so for
every session that a run from an initial session reaches, whatever its
cursor; "enter" in Delete mode, for every pending input, leaves the task list
empty and the world unchanged; and "up" and "down" in List mode with cursor 0
leave the cursor at 0. -/
theorem confirm_disabled_on_empty_list (tiUpdate : TextInput → String → TextInput × Cmd)
    (fs : FsOutcome) (m : model) (w : World) (hempty : m.tasks = []) :
    (m.currentMode = modeList → 0 ≤ m.cursor →
        Update tiUpdate fs m (Msg.KeyMsg "enter") w = .ok (m, Cmd.nil, w))
      ∧ (m.currentMode = modeList →
          ∀ (tasks0 : List Task) (es : List Event) (w0 w1 : World),
            run es (initialModel tasks0) w0 = .ok (m, w1) →
            Update tiUpdate fs m (Msg.KeyMsg "enter") w = .ok (m, Cmd.nil, w))
      ∧ (m.currentMode = modeDelete →
          Update tiUpdate fs m (Msg.KeyMsg "enter") w
            = .ok ({ m with textinput :=
                       { value := "", Placeholder := "Invalid task number! Try again.",
                         focus := (tiUpdate m.textinput "enter").1.focus } },
                   (tiUpdate m.textinput "enter").2, w))
      ∧ (m.currentMode = modeList → m.cursor = 0 →
          Update tiUpdate fs m (Msg.KeyMsg "up") w = .ok (m, Cmd.nil, w)
            ∧ Update tiUpdate fs m (Msg.KeyMsg "down") w = .ok (m, Cmd.nil, w)) := by
  have hlist : m.currentMode = modeList → 0 ≤ m.cursor →
      Update tiUpdate fs m (Msg.KeyMsg "enter") w = .ok (m, Cmd.nil, w) := by
    intro hmode hc
    have hguard : ¬ (m.cursor < ((m.tasks.length : Nat) : Int)) := by
      rw [hempty]; simpa using hc
    simp [Update, UpdateList, hmode, modeIdle, modeList, modeAdd, hguard]
  refine ⟨hlist, ?_, ?_, ?_⟩
  · intro hmode tasks0 es w0 w1 hrun
    exact hlist hmode (run_cursor_nonneg es (initialModel tasks0) m w0 w1 (le_refl _) hrun)
  · intro hmode
    cases hp : Atoi (tiUpdate m.textinput "enter").1.value with
    | none =>
      simp [Update, UpdateDelete, hmode, modeIdle, modeList, modeAdd, modeDelete, hp,
        TextInput.SetValue]
    | some n =>
      have hn : ¬ (n > 0 ∧ n ≤ ((m.tasks.length : Nat) : Int)) := by
        rw [hempty]; simp only [List.length_nil, Nat.cast_zero]; omega
      simp [Update, UpdateDelete, hmode, modeIdle, modeList, modeAdd, modeDelete, hp, hn,
        TextInput.SetValue]
  · intro hmode hc
    have hdown : ¬ (m.cursor < ((m.tasks.length : Nat) : Int) - 1) := by
      rw [hempty, hc]; simp
    constructor
    · simp [Update, UpdateList, hmode, modeIdle, modeList, modeAdd, hc]
    · simp [Update, UpdateList, hmode, modeIdle, modeList, modeAdd, hdown]

/-- Witness of C15: the empty list in List mode, cursor 0, as reached from the
initial session by the key "l". -/
theorem confirm_disabled_on_empty_list_witness :
    emptyList.tasks = [] ∧ emptyList.currentMode = modeList
      ∧ run [key "l"] (initialModel []) World.empty = .ok (emptyList, World.empty)
      ∧ Update typing FsOutcome.ok emptyList (Msg.KeyMsg "enter") World.empty
          = .ok (emptyList, Cmd.nil, World.empty) :=
  ⟨by decide, by decide, by rfl,
    (confirm_disabled_on_empty_list typing FsOutcome.ok emptyList World.empty (by decide)).2.1
      (by decide) [] [key "l"] World.empty World.empty (by rfl)⟩

/-- C16. Cancel returns to Idle without mutation: in Add, List or Delete mode,
"esc" sets the mode to Idle, leaves the task list, the cursor and the file
name unchanged, leaves the world unchanged (no `SaveTask` call), and in Add
and Delete mode empties the pending input; in List mode the input is left as
it is. -/
theorem cancel_returns_to_idle (tiUpdate : TextInput → String → TextInput × Cmd)
    (fs : FsOutcome) (m : model) (w : World)
    (hmode : m.currentMode = modeAdd ∨ m.currentMode = modeList
      ∨ m.currentMode = modeDelete) :
    ∃ m1 c, Update tiUpdate fs m (Msg.KeyMsg "esc") w = .ok (m1, c, w)
      ∧ m1.currentMode = modeIdle ∧ m1.tasks = m.tasks ∧ m1.cursor = m.cursor
      ∧ m1.fileName = m.fileName
      ∧ (m.currentMode = modeAdd ∨ m.currentMode = modeDelete → m1.textinput.value = "")
      ∧ (m.currentMode = modeList → m1.textinput = m.textinput) := by
  rcases hmode with h | h | h
  · refine ⟨{ m with textinput := (tiUpdate m.textinput "esc").1.Reset,
                     currentMode := modeIdle }, (tiUpdate m.textinput "esc").2,
      ?_, rfl, rfl, rfl, rfl, fun _ => rfl, ?_⟩
    · simp [Update, UpdateAdd, h, modeIdle, modeList, modeAdd]
    · intro hl; rw [h] at hl; exact absurd hl (by decide)
  · refine ⟨{ m with currentMode := modeIdle }, Cmd.nil, ?_, rfl, rfl, rfl, rfl, ?_,
      fun _ => rfl⟩
    · simp [Update, UpdateList, h, modeIdle, modeList, modeAdd]
    · intro hl
      rcases hl with hl | hl <;> (rw [h] at hl; exact absurd hl (by decide))
  · refine ⟨{ m with textinput := (tiUpdate m.textinput "esc").1.Reset,
                     currentMode := modeIdle }, (tiUpdate m.textinput "esc").2,
      ?_, rfl, rfl, rfl, rfl, fun _ => rfl, ?_⟩
    · simp [Update, UpdateDelete, h, modeIdle, modeList, modeAdd, modeDelete]
    · intro hl; rw [h] at hl; exact absurd hl (by decide)

/-- Witness of C16: cancel in the Delete mode of scenario 5. -/
theorem cancel_returns_to_idle_witness :
    (scenario5.currentMode = modeAdd ∨ scenario5.currentMode = modeList
        ∨ scenario5.currentMode = modeDelete)
      ∧ ∃ m1 c, Update typing FsOutcome.ok scenario5 (Msg.KeyMsg "esc") World.empty
            = .ok (m1, c, World.empty)
          ∧ m1.currentMode = modeIdle ∧ m1.tasks = scenario5.tasks
          ∧ m1.cursor = scenario5.cursor ∧ m1.fileName = scenario5.fileName
          ∧ (scenario5.currentMode = modeAdd ∨ scenario5.currentMode = modeDelete →
              m1.textinput.value = "")
          ∧ (scenario5.currentMode = modeList → m1.textinput = scenario5.textinput) :=
  ⟨by decide, cancel_returns_to_idle typing FsOutcome.ok scenario5 World.empty (by decide)⟩

/-- C17. The Idle mode: a key other than "q", "ctrl+c", "+", "l" and "d"
returns the session and the world unchanged with no command (no `SaveTask`
call, no quit); "+" only sets the mode to Add and resets the input with the
hint "Enter a new task"; "l" only sets the mode to List; "d" only sets the
mode to Delete and resets the input with the hint "Enter the task number".
The task list, the cursor and the world stay as they were; the input that is
reset is also focused. -/
theorem idle_ignores_unknown_keys (tiUpdate : TextInput → String → TextInput × Cmd)
    (fs : FsOutcome) (m : model) (w : World) (hmode : m.currentMode = modeIdle) :
    (∀ k : String, k ≠ "q" → k ≠ "ctrl+c" → k ≠ "+" → k ≠ "l" → k ≠ "d" →
        Update tiUpdate fs m (Msg.KeyMsg k) w = .ok (m, Cmd.nil, w))
      ∧ Update tiUpdate fs m (Msg.KeyMsg "+") w
          = .ok ({ m with currentMode := modeAdd,
                          textinput := { value := "", Placeholder := "Enter a new task",
                                         focus := true } }, Cmd.nil, w)
      ∧ Update tiUpdate fs m (Msg.KeyMsg "l") w
          = .ok ({ m with currentMode := modeList }, Cmd.nil, w)
      ∧ Update tiUpdate fs m (Msg.KeyMsg "d") w
          = .ok ({ m with currentMode := modeDelete,
                          textinput := { value := "", Placeholder := "Enter the task number",
                                         focus := true } }, Cmd.nil, w) := by
  refine ⟨?_, ?_, ?_, ?_⟩
  · intro k h1 h2 h3 h4 h5
    simp [Update, UpdateIdle, hmode, h1, h2, h3, h4, h5]
  · simp [Update, UpdateIdle, hmode, TextInput.Reset, TextInput.SetValue, TextInput.Focus]
  · simp [Update, UpdateIdle, hmode]
  · simp [Update, UpdateIdle, hmode, TextInput.Reset, TextInput.SetValue, TextInput.Focus]

/-- Witness of C17: the key "x" in the initial session. -/
theorem idle_ignores_unknown_keys_witness :
    (initialModel [⟨"a", false⟩]).currentMode = modeIdle
      ∧ Update typing FsOutcome.ok (initialModel [⟨"a", false⟩]) (Msg.KeyMsg "x") World.empty
          = .ok (initialModel [⟨"a", false⟩], Cmd.nil, World.empty) :=
  ⟨by decide,
    (idle_ignores_unknown_keys typing FsOutcome.ok (initialModel [⟨"a", false⟩]) World.empty
      (by decide)).1 "x" (by decide) (by decide) (by decide) (by decide) (by decide)⟩

/-- C18. `Update` is total on reachable states: from every session with
cursor 0 (the initial session, in mode Idle, is one), every sequence of events
runs to the end without a panic,
so every index and slice bound that `Update` used on the way (`tasks[cursor]`
in the toggle, `tasks[:i]` and `tasks[i+1:]` in delete-completed,
`tasks[:n-1]` and `tasks[n:]` in the single delete) was within range, and the
cursor of the session reached is not negative. -/
theorem update_total_on_reachable (m : model) (hc : m.cursor = 0) (es : List Event)
    (w : World) :
    ∃ m1 w1, run es m w = .ok (m1, w1) ∧ 0 ≤ m1.cursor := by
  exact run_invariant (fun m _ => 0 ≤ m.cursor) (fun _ => True)
    (fun e m w _ hP => Update_total e.tiUpdate e.fs m e.msg w hP)
    (fun e m w r _ hP hr => (Update_sound e.tiUpdate e.fs m e.msg w r hr).2.1 hP)
    es m w (fun _ _ => trivial) (le_of_eq hc.symm)

/-- Witness of C18: a run through List, Delete and Add mode from the initial
session. -/
theorem update_total_on_reachable_witness :
    (initialModel [⟨"a", true⟩, ⟨"b", false⟩]).currentMode = modeIdle
      ∧ (initialModel [⟨"a", true⟩, ⟨"b", false⟩]).cursor = 0
      ∧ ∃ m1 w1,
          run [key "l", key "down", key "d", key "enter", key "up", key "esc", key "d",
               key "1", key "enter"]
              (initialModel [⟨"a", true⟩, ⟨"b", false⟩]) World.empty = .ok (m1, w1)
            ∧ 0 ≤ m1.cursor :=
  ⟨by decide, by decide,
    update_total_on_reachable (initialModel [⟨"a", true⟩, ⟨"b", false⟩]) (by decide) _
      World.empty⟩

theorem Update_frame (tiUpdate : TextInput → String → TextInput × Cmd)
    (fs : FsOutcome) (m : model) (k : String) (w : World)
    (h : ¬ mutatingAction tiUpdate m k) :
    ∃ m1 c, Update tiUpdate fs m (Msg.KeyMsg k) w = .ok (m1, c, w)
      ∧ m1.tasks = m.tasks := by
  simp only [mutatingAction, not_or, not_and] at h
  obtain ⟨hA, hL1, hL2, hD⟩ := h
  simp only [Update]
  split_ifs with hI hAdd hList hDel
  · unfold UpdateIdle
    split_ifs <;> exact ⟨_, _, rfl, rfl⟩
  · by_cases hk : k = "enter"
    · have hv : (tiUpdate m.textinput k).1.value = "" := not_not.mp (hA hAdd hk)
      subst hk
      simp only [UpdateAdd, ne_eq, ite_not, hv, if_true]
      exact ⟨_, _, rfl, rfl⟩
    · simp only [UpdateAdd, hk, if_false]
      split_ifs <;> exact ⟨_, _, rfl, rfl⟩
  · have hk1 : k ≠ "enter" := hL1 hList
    have hk2 : k ≠ "d" := hL2 hList
    simp only [UpdateList, hk1, hk2, if_false]
    split_ifs <;> exact ⟨_, _, rfl, rfl⟩
  · by_cases hk : k = "enter"
    · have hD1 := hD hDel hk
      subst hk
      simp only [UpdateDelete, if_true]
      split
      · rename_i n hn
        have hbad : ¬ (n > 0 ∧ n ≤ (m.tasks.length : Int)) := by
          intro hv
          exact hD1 ⟨n, hn, by omega, hv.2⟩
        simp only [if_neg hbad]
        exact ⟨_, _, rfl, rfl⟩
      · exact ⟨_, _, rfl, rfl⟩
    · simp only [UpdateDelete, hk, if_false]
      split_ifs <;> exact ⟨_, _, rfl, rfl⟩
  · exact ⟨_, _, rfl, rfl⟩

/-- C19. Only four actions mutate the task list: for every session and key,
a step that is none of the four actions of `mutatingAction` returns, with the
task list and the world unchanged (no `SaveTask` call); hence whenever the
task list after `Update` differs from the one before, the step was one of
those four actions. -/
theorem only_four_actions_mutate :
    (∀ (tiUpdate : TextInput → String → TextInput × Cmd) (fs : FsOutcome)
        (m : model) (k : String) (w : World), ¬ mutatingAction tiUpdate m k →
        ∃ m1 c, Update tiUpdate fs m (Msg.KeyMsg k) w = .ok (m1, c, w)
          ∧ m1.tasks = m.tasks)
      ∧ ∀ (tiUpdate : TextInput → String → TextInput × Cmd) (fs : FsOutcome)
          (m : model) (k : String) (w : World) (m1 : model) (c : Cmd) (w1 : World),
          Update tiUpdate fs m (Msg.KeyMsg k) w = .ok (m1, c, w1) →
          m1.tasks ≠ m.tasks → mutatingAction tiUpdate m k := by
  refine ⟨Update_frame, ?_⟩
  intro tiUpdate fs m k w m1 c w1 hup hne
  by_contra hnot
  obtain ⟨m2, c2, h2, ht⟩ := Update_frame tiUpdate fs m k w hnot
  rw [hup] at h2
  cases h2
  exact hne ht

/-- Witness of C19: the key "x" in List mode is none of the four actions. -/
theorem only_four_actions_mutate_witness :
    ¬ mutatingAction typing scenario2 "x"
      ∧ ∃ m1 c, Update typing FsOutcome.ok scenario2 (Msg.KeyMsg "x") World.empty
            = .ok (m1, c, World.empty)
          ∧ m1.tasks = scenario2.tasks :=
  have h : ¬ mutatingAction typing scenario2 "x" := by
    simp [mutatingAction, scenario2, initialModel, modeAdd, modeList, modeDelete]
  ⟨h, only_four_actions_mutate.1 typing FsOutcome.ok scenario2 "x" World.empty h⟩

end TodoistCLI
